import Mathlib

/- Verification of the IPTV stream-monitor core: a shallow embedding of
   src/iptv_monitor/worker.py and run_local_test.py, with theorems about the
   probe classifier, the per-channel health record updates, the fetcher retry
   loop, the playlist parser, and the two orchestration policies.

   Modelling conventions: Python floats are modelled as rationals; Python
   round(x, 2) is modelled as rational rounding to 2 decimal places
   (round-half-up, which agrees with the Python value on every input used in
   the theorems below, all chosen away from half-way points); wall-clock
   readings are threaded as explicit parameters; the event loop of a
   concurrent sweep is modelled as a small-step transition system over
   task-counting states. Python string primitives (substring membership,
   strip, lower, startswith, splitlines) are implemented directly over
   character lists so that all definitions evaluate by kernel reduction. -/

namespace IPTVMonitor

/-- Boolean list-prefix test, used to implement the Python substring operator
    and str.startswith. -/
def startsWithList : List Char → List Char → Bool
  | [], _ => true
  | _ :: _, [] => false
  | c :: p, d :: s => c == d && startsWithList p s

/-- Boolean substring test on character lists: pat occurs somewhere in s.
    Mirrors the semantics of the Python expression pat in s. -/
def containsList (pat : List Char) : List Char → Bool
  | [] => startsWithList pat []
  | c :: t => startsWithList pat (c :: t) || containsList pat t

/-- Python membership test pat in s on strings (plain substring containment). -/
def strContains (s pat : String) : Bool := containsList pat.data s.data

/-- Python str.lower (the texts classified by this program are ASCII). -/
def lowerStr (s : String) : String := String.mk (s.data.map Char.toLower)

/-- Python str.strip: drop leading and trailing whitespace. -/
def pyStrip (s : String) : String :=
  String.mk (((s.data.dropWhile Char.isWhitespace).reverse.dropWhile Char.isWhitespace).reverse)

/-- Python str.startswith on strings. -/
def pyStartsWith (s pre : String) : Bool := startsWithList pre.data s.data

/-- Python expression pat in text.lower( ) as used by read_stderr in
    run_local_test.py lines 104 and 107 (the pattern literals are lowercase). -/
def lowerContains (text pat : String) : Bool := strContains (lowerStr text) pat

/-- Case-insensitive containment as worded by the specification (the claim
    side of C1): both sides are lowered before the substring comparison. This
    definition follows the words of the spec, for comparison with the
    code-side classifier below. -/
def containsCI (s pat : String) : Bool := strContains (lowerStr s) (lowerStr pat)

/-- Maximal leading run of decimal digits of a character list. -/
def digitRun : List Char → List Char
  | [] => []
  | c :: rest => if c.isDigit then c :: digitRun rest else []

/-- Implements re.search of a literal key followed by a nonempty digit group,
    as in the width/height extractions of worker.py: the first position where
    the key occurs immediately followed by at least one digit wins, and the
    maximal digit run there is returned. -/
def findKeyNum (key : List Char) : List Char → Option String
  | [] => none
  | c :: rest =>
    if startsWithList key (c :: rest) && !(digitRun ((c :: rest).drop key.length)).isEmpty then
      some (String.mk (digitRun ((c :: rest).drop key.length)))
    else findKeyNum key rest

/-- Python round(x, 2): rounding to two decimal places. Rounding of the
    scaled value is round-half-up here; the Python builtin is round-half-even
    on binary floats, and the two agree on every concrete value appearing in
    the theorems below. -/
def round2 (x : ℚ) : ℚ := ((round (100 * x) : ℤ) : ℚ) / 100

/-- The result of one probe invocation, as returned by check_ts in
    worker.py: (result, notes, resolution, test_duration). A missing
    resolution or duration (Python None) is modelled with Option. -/
structure ProbeOutcome where
  status : String
  notes : String
  resolution : Option String
  duration : Option ℚ
  deriving Repr, DecidableEq

/-- The environment of one check_ts call: either the asyncio.wait_for
    deadline fired, or an exception was raised (by subprocess.run or any
    other failure, inner or outer handler - both produce the same outcome
    shape), or the ffprobe process completed with a return code, captured
    stdout and stderr texts, and an elapsed wall time. -/
inductive CheckEnv where
  | timeout : CheckEnv
  | exc (msg : String) : CheckEnv
  | completed (returncode : ℤ) (out err : String) (elapsed : ℚ) : CheckEnv

/-- The body of check_ts (worker.py lines 80-116) for a completed ffprobe
    run. The local variable duration extracted from the report in the source
    is dead code (never returned) and is not modelled. -/
def checkCompleted (returncode : ℤ) (out err : String) (elapsed : ℚ) : ProbeOutcome :=
  if returncode ≠ 0 then
    { status := "buffering", notes := pyStrip ("ffprobe error: " ++ pyStrip err),
      resolution := some "", duration := some elapsed }
  else
    let notes0 := (if strContains out "codec_type=video" then "[video detected] " else "")
      ++ (if strContains out "codec_type=audio" then "[audio detected] " else "")
    let w := findKeyNum ("width=".data) out.data
    let h := findKeyNum ("height=".data) out.data
    let hasRes := w.isSome && h.isSome
    let resolution := if hasRes then w.getD "" ++ "x" ++ h.getD "" else ""
    let notes1 := if hasRes then pyStrip (notes0 ++ "[video detected " ++ resolution ++ "] ")
      else notes0
    let isBuf := strContains out "error" || strContains out "buffer"
    let notes2 := if isBuf then notes1 ++ "[ffprobe buffering] " else notes1
    { status := if isBuf then "buffering" else "pass", notes := pyStrip notes2,
      resolution := some resolution, duration := some elapsed }

/-- check_ts (worker.py lines 76-124): total in the environment; every
    failure path resolves to a ProbeOutcome. -/
def check_ts : CheckEnv → ProbeOutcome
  | CheckEnv.timeout => { status := "error", notes := "timeout", resolution := none, duration := none }
  | CheckEnv.exc m => { status := "error", notes := m, resolution := none, duration := none }
  | CheckEnv.completed rc out err elapsed => checkCompleted rc out err elapsed

/-- C1 counterexample: the claim says the substring comparison is
    case-insensitive, but check_ts tests the literal lowercase substrings
    against the raw stdout text. On a completed run with exit code 0 and
    stdout ERROR, check_ts returns pass while the claimed case-insensitive
    condition demands buffering, so the stated biconditional fails. -/
theorem check_ts_case_insensitivity_fails :
    ¬ ((check_ts (CheckEnv.completed 0 "ERROR" "" 1)).status = "buffering" ↔
        ((0 : ℤ) ≠ 0 ∨ containsCI "ERROR" "error" = true ∨ containsCI "ERROR" "buffer" = true)) := by
  decide

/-- C1 amended: for every completed inspection process, the outcome status is
    buffering if the process exits with a non-zero status, or if its stdout
    text contains the substrings error or buffer compared case-sensitively;
    otherwise the status is pass. -/
theorem check_ts_status_classification (rc : ℤ) (out err : String) (elapsed : ℚ) :
    (check_ts (CheckEnv.completed rc out err elapsed)).status =
      if rc ≠ 0 ∨ strContains out "error" = true ∨ strContains out "buffer" = true
      then "buffering" else "pass" := by
  by_cases h : rc = 0
  · subst h
    simp only [check_ts, checkCompleted]
    cases he : strContains out "error" <;> cases hb : strContains out "buffer" <;> simp [he, hb]
  · simp [check_ts, checkCompleted, h]

/-- C3: check_ts converts every failure to a ProbeOutcome: a timeout yields
    status error with notes timeout, any other failure yields status error
    with the exception message as notes, and every environment (the embedded
    call being total, no exception ever propagates to the caller) produces
    one of the three statuses pass, buffering, error. -/
theorem check_ts_failure_paths :
    check_ts CheckEnv.timeout =
      { status := "error", notes := "timeout", resolution := none, duration := none } ∧
    (∀ m : String, check_ts (CheckEnv.exc m) =
      { status := "error", notes := m, resolution := none, duration := none }) ∧
    (∀ env : CheckEnv, (check_ts env).status = "pass" ∨
      (check_ts env).status = "buffering" ∨ (check_ts env).status = "error") := by
  refine ⟨rfl, fun m => rfl, fun env => ?_⟩
  cases env with
  | timeout => right; right; rfl
  | exc m => right; right; rfl
  | completed rc out err elapsed =>
    rw [check_ts_status_classification]
    by_cases h : rc ≠ 0 ∨ strContains out "error" = true ∨ strContains out "buffer" = true
    · right; left; simp [h]
    · left; simp [h]

/-- One channel entry of the shared results snapshot (the dict literal built
    in run_local_test.py lines 36 and 296-309). Counters are naturals, times
    and durations rationals, timestamps integers. -/
structure ChannelRec where
  name : String
  status : String
  details : String
  url : String
  resolution : String
  test_duration : String
  tested_seconds : ℤ
  issues_buffering : ℕ
  issues_errors : ℕ
  disconnects_count : ℕ
  disconnects : List ℤ
  buffering_total_seconds : ℚ
  buffering_events : List ℚ
  deriving Repr, DecidableEq

/-- The fresh record created for a channel when no previous state is carried
    over (run_local_test.py line 36). -/
def freshRecord (name url : String) : ChannelRec :=
  { name := name, status := "pending", details := "", url := url, resolution := "",
    test_duration := "", tested_seconds := 0, issues_buffering := 0, issues_errors := 0,
    disconnects_count := 0, disconnects := [], buffering_total_seconds := 0,
    buffering_events := [] }

/-- Python truthiness of the optional probe duration: None and 0.0 are falsy. -/
def pyTruthy (t : Option ℚ) : Bool :=
  match t with
  | none => false
  | some x => decide (x ≠ 0)

/-- buff_dur of run_local_test.py line 191: float(single_probe_time) if
    single_probe_time else 0.0. -/
def buffDur (t : Option ℚ) : ℚ := if pyTruthy t then t.getD 0 else 0

/-- Renders a rational the way the f-string with two decimal places and an s
    suffix does in run_local_test.py line 205. -/
def fmtSeconds (x : ℚ) : String :=
  let n : ℤ := round (100 * x)
  let sign := if n < 0 then "-" else ""
  let m := n.natAbs
  sign ++ toString (m / 100) ++ "." ++ (if m % 100 < 10 then "0" else "") ++ toString (m % 100) ++ "s"

/-- test_duration field written by the periodic loop (line 205): formatted
    when the probe time is truthy, empty otherwise. -/
def fmtDuration (t : Option ℚ) : String := if pyTruthy t then fmtSeconds (t.getD 0) else ""

/-- One iteration of the periodic while-loop of probe_channel
    (run_local_test.py lines 177-210): the check_ts tuple that was obtained
    (or synthesized by the except branch), the wall-clock timestamp read when
    appending a disconnect, and the tested_seconds value written by the
    running update. -/
structure PStep where
  r : String
  notes : String
  resolution : String
  sptime : Option ℚ
  now : ℤ
  testedNow : ℤ
  deriving Repr, DecidableEq

/-- The loop state of the periodic path of probe_channel: the shared record
    plus the local counters and caches (buffer_count, error_count,
    last_notes, last_resolution). -/
structure PState where
  record : ChannelRec
  bc : ℕ
  ec : ℕ
  lastNotes : String
  lastRes : String
  deriving Repr, DecidableEq

/-- One pass of the periodic loop body (run_local_test.py lines 182-209):
    cache notes and resolution, on a buffering result append the rounded
    duration to buffering_events while accumulating the unrounded duration
    into buffering_total_seconds, on an error result append a disconnect
    timestamp in lockstep with the counter, then write the running fields. -/
def periodicStep (s : PState) (p : PStep) : PState :=
  let lastNotes := p.notes
  let lastRes := if p.resolution ≠ "" then p.resolution else s.lastRes
  let rec1 := if p.r == "buffering" then
      { s.record with
        buffering_events := s.record.buffering_events ++ [round2 (buffDur p.sptime)],
        buffering_total_seconds := s.record.buffering_total_seconds + buffDur p.sptime }
    else s.record
  let bc := if p.r == "buffering" then s.bc + 1 else s.bc
  let rec2 := if p.r == "error" then
      { rec1 with
        disconnects_count := rec1.disconnects_count + 1,
        disconnects := rec1.disconnects ++ [p.now] }
    else rec1
  let ec := if p.r == "error" then s.ec + 1 else s.ec
  let rec3 := { rec2 with
    status := "testing", details := lastNotes, resolution := lastRes,
    test_duration := fmtDuration p.sptime, tested_seconds := p.testedNow,
    issues_buffering := bc, issues_errors := ec }
  { record := rec3, bc := bc, ec := ec, lastNotes := lastNotes, lastRes := lastRes }

/-- The finalize block of the periodic path (run_local_test.py lines
    211-223): terminal status from the counters, final field writes, and
    rounding of the accumulated buffering total. -/
def periodicFinalize (s : PState) (testedFinal : ℤ) : ChannelRec :=
  { s.record with
    status := if s.bc = 0 ∧ s.ec = 0 then "pass" else "issue",
    details := s.lastNotes,
    resolution := s.lastRes,
    tested_seconds := testedFinal,
    issues_buffering := s.bc,
    issues_errors := s.ec,
    buffering_total_seconds := round2 s.record.buffering_total_seconds }

/-- The initial loop state of probe_channel: the record is marked testing
    (line 54), the counters and caches start empty (lines 48-51). -/
def initPState (rec0 : ChannelRec) : PState :=
  { record := { rec0 with status := "testing" }, bc := 0, ec := 0, lastNotes := "", lastRes := "" }

/-- The whole periodic (non-continuous) measurement window of one channel:
    mark testing, run the iterations that occurred, finalize. -/
def periodicRun (rec0 : ChannelRec) (steps : List PStep) (testedFinal : ℤ) : ChannelRec :=
  periodicFinalize (steps.foldl periodicStep (initPState rec0)) testedFinal

/-- State of the read_stderr reader of the continuous path
    (run_local_test.py lines 97-109). -/
structure StderrState where
  buffer_count : ℕ
  error_count : ℕ
  last_notes : String
  deriving Repr, DecidableEq

/-- One decoded, stripped diagnostic line processed by read_stderr: a line
    containing error or failed (lowered) increments the error counter, a line
    containing buffer increments the buffering counter; each match appends
    the line to the running notes. -/
def stderrStep (s : StderrState) (text : String) : StderrState :=
  let s1 := if lowerContains text "error" || lowerContains text "failed" then
      { s with
        error_count := s.error_count + 1,
        last_notes := pyStrip (s.last_notes ++ " " ++ text) }
    else s
  if lowerContains text "buffer" then
    { s1 with
      buffer_count := s1.buffer_count + 1,
      last_notes := pyStrip (s1.last_notes ++ " " ++ text) }
  else s1

/-- State of the read_stdout reader (run_local_test.py lines 75-96). -/
structure StdoutState where
  last_width : Option String
  last_height : Option String
  last_resolution : String
  deriving Repr, DecidableEq

/-- One decoded, stripped report line processed by read_stdout: width and
    height captures update the trackers, and once both are set the live
    resolution is rewritten. -/
def stdoutStep (s : StdoutState) (text : String) : StdoutState :=
  let w := if strContains text "width=" then
      match findKeyNum ("width=".data) text.data with
      | some d => some d
      | none => s.last_width
    else s.last_width
  let h := if strContains text "height=" then
      match findKeyNum ("height=".data) text.data with
      | some d => some d
      | none => s.last_height
    else s.last_height
  let res := match w, h with
    | some a, some b => a ++ "x" ++ b
    | _, _ => s.last_resolution
  { last_width := w, last_height := h, last_resolution := res }

/-- The continuous measurement window of one channel (run_local_test.py
    lines 58-174): the record is marked testing, the seed probe contributes
    initial notes and resolution, the two reader tasks fold over the decoded
    stripped lines of the two process channels (they touch disjoint state, so
    the concurrent interleaving is equivalent to two independent folds), and
    the final block classifies from the stderr counters. The disconnects and
    buffering_events sequences are not touched on this path; the buffering
    total is only re-rounded. -/
def continuousRun (rec0 : ChannelRec) (seedNotes seedRes : String)
    (outLines errLines : List String) (elapsed : ℤ) : ChannelRec :=
  let rec1 := { rec0 with status := "testing" }
  let st := errLines.foldl stderrStep { buffer_count := 0, error_count := 0, last_notes := seedNotes }
  let so := outLines.foldl stdoutStep { last_width := none, last_height := none, last_resolution := seedRes }
  { rec1 with
    status := if st.buffer_count = 0 ∧ st.error_count = 0 then "pass" else "issue",
    details := st.last_notes,
    resolution := so.last_resolution,
    test_duration := "",
    tested_seconds := elapsed,
    issues_buffering := st.buffer_count,
    issues_errors := st.error_count,
    buffering_total_seconds := round2 rec1.buffering_total_seconds }

/-- Buffering durations observed by a periodic window, in order. -/
def bufDurs (steps : List PStep) : List ℚ :=
  (steps.filter (fun p => p.r == "buffering")).map (fun p => buffDur p.sptime)

/-- Disconnect timestamps recorded by a periodic window, in order. -/
def errTimes (steps : List PStep) : List ℤ :=
  (steps.filter (fun p => p.r == "error")).map (fun p => p.now)

/-- Number of buffering results in a periodic window. -/
def numBufferSteps (steps : List PStep) : ℕ := (steps.filter (fun p => p.r == "buffering")).length

/-- Number of error results in a periodic window. -/
def numErrorSteps (steps : List PStep) : ℕ := (steps.filter (fun p => p.r == "error")).length

/-- Number of diagnostic lines matching the error heuristic. -/
def numErrorLines (lines : List String) : ℕ :=
  (lines.filter (fun t => lowerContains t "error" || lowerContains t "failed")).length

/-- Number of diagnostic lines matching the buffering heuristic. -/
def numBufferLines (lines : List String) : ℕ :=
  (lines.filter (fun t => lowerContains t "buffer")).length

theorem periodicStep_fields (s : PState) (p : PStep) :
    (periodicStep s p).record.buffering_events
        = s.record.buffering_events ++ (if p.r == "buffering" then [round2 (buffDur p.sptime)] else []) ∧
    (periodicStep s p).record.buffering_total_seconds
        = s.record.buffering_total_seconds + (if p.r == "buffering" then buffDur p.sptime else 0) ∧
    (periodicStep s p).record.disconnects
        = s.record.disconnects ++ (if p.r == "error" then [p.now] else []) ∧
    (periodicStep s p).record.disconnects_count
        = s.record.disconnects_count + (if p.r == "error" then 1 else 0) ∧
    (periodicStep s p).bc = s.bc + (if p.r == "buffering" then 1 else 0) ∧
    (periodicStep s p).ec = s.ec + (if p.r == "error" then 1 else 0) := by
  by_cases hb : (p.r == "buffering") = true <;> by_cases he : (p.r == "error") = true <;>
    simp [periodicStep, hb, he]

theorem foldl_periodicStep_fields (steps : List PStep) (s : PState) :
    (steps.foldl periodicStep s).record.buffering_events
        = s.record.buffering_events ++ (bufDurs steps).map round2 ∧
    (steps.foldl periodicStep s).record.buffering_total_seconds
        = s.record.buffering_total_seconds + (bufDurs steps).sum ∧
    (steps.foldl periodicStep s).record.disconnects = s.record.disconnects ++ errTimes steps ∧
    (steps.foldl periodicStep s).record.disconnects_count
        = s.record.disconnects_count + (errTimes steps).length ∧
    (steps.foldl periodicStep s).bc = s.bc + numBufferSteps steps ∧
    (steps.foldl periodicStep s).ec = s.ec + numErrorSteps steps := by
  induction steps generalizing s with
  | nil => simp [bufDurs, errTimes, numBufferSteps, numErrorSteps]
  | cons p rest ih =>
    obtain ⟨h1, h2, h3, h4, h5, h6⟩ := ih (periodicStep s p)
    obtain ⟨g1, g2, g3, g4, g5, g6⟩ := periodicStep_fields s p
    simp only [List.foldl_cons]
    by_cases hb : (p.r == "buffering") = true <;> by_cases he : (p.r == "error") = true <;>
      refine ⟨?_, ?_, ?_, ?_, ?_, ?_⟩ <;>
        simp [h1, h2, h3, h4, h5, h6, g1, g2, g3, g4, g5, g6, bufDurs, errTimes,
          numBufferSteps, numErrorSteps, List.filter_cons, hb, he,
          add_comm, add_assoc, add_left_comm]

theorem foldl_stderrStep_counts (lines : List String) (s : StderrState) :
    (lines.foldl stderrStep s).buffer_count = s.buffer_count + numBufferLines lines ∧
    (lines.foldl stderrStep s).error_count = s.error_count + numErrorLines lines := by
  induction lines generalizing s with
  | nil => simp [numBufferLines, numErrorLines]
  | cons t rest ih =>
    obtain ⟨h1, h2⟩ := ih (stderrStep s t)
    simp only [List.foldl_cons]
    refine ⟨?_, ?_⟩
    · rw [h1]
      by_cases he : (lowerContains t "error" || lowerContains t "failed") = true <;>
        by_cases hb : (lowerContains t "buffer") = true <;>
          simp [stderrStep, numBufferLines, List.filter_cons, he, hb,
            add_comm, add_assoc, add_left_comm]
    · rw [h2]
      by_cases he : (lowerContains t "error" || lowerContains t "failed") = true <;>
        by_cases hb : (lowerContains t "buffer") = true <;>
          simp [stderrStep, numErrorLines, List.filter_cons, he, hb,
            add_comm, add_assoc, add_left_comm]

/-- C2: in both measurement paths the finalized status is pass exactly when
    zero buffering events and zero error events were counted in the window
    (for the periodic path, buffering and error probe results; for the
    continuous path, diagnostic lines matching the buffering and error
    heuristics), and otherwise the status is issue. -/
theorem window_status_pass_iff (rec0 : ChannelRec) (steps : List PStep) (testedFinal : ℤ)
    (seedNotes seedRes : String) (outLines errLines : List String) (elapsed : ℤ) :
    ((periodicRun rec0 steps testedFinal).status = "pass" ↔
      numBufferSteps steps = 0 ∧ numErrorSteps steps = 0) ∧
    ((periodicRun rec0 steps testedFinal).status = "pass" ∨
      (periodicRun rec0 steps testedFinal).status = "issue") ∧
    ((continuousRun rec0 seedNotes seedRes outLines errLines elapsed).status = "pass" ↔
      numBufferLines errLines = 0 ∧ numErrorLines errLines = 0) ∧
    ((continuousRun rec0 seedNotes seedRes outLines errLines elapsed).status = "pass" ∨
      (continuousRun rec0 seedNotes seedRes outLines errLines elapsed).status = "issue") := by
  obtain ⟨-, -, -, -, h5, h6⟩ := foldl_periodicStep_fields steps (initPState rec0)
  obtain ⟨g1, g2⟩ := foldl_stderrStep_counts errLines
    { buffer_count := 0, error_count := 0, last_notes := seedNotes }
  have hst : (periodicRun rec0 steps testedFinal).status =
      if numBufferSteps steps = 0 ∧ numErrorSteps steps = 0 then "pass" else "issue" := by
    simp only [periodicRun, periodicFinalize]
    rw [h5, h6]
    simp [initPState]
  have hst2 : (continuousRun rec0 seedNotes seedRes outLines errLines elapsed).status =
      if numBufferLines errLines = 0 ∧ numErrorLines errLines = 0 then "pass" else "issue" := by
    simp only [continuousRun]
    rw [g1, g2]
    simp
  refine ⟨?_, ?_, ?_, ?_⟩
  · rw [hst]; split_ifs with h <;> simp [h]
  · rw [hst]; split_ifs <;> simp
  · rw [hst2]; split_ifs with h <;> simp [h]
  · rw [hst2]; split_ifs <;> simp

/-- A single periodic probe iteration whose check_ts result was buffering
    with a measured probe time of 0.004 seconds. -/
def bufStep004 : PStep :=
  { r := "buffering", notes := "", resolution := "", sptime := some (1/250), now := 0, testedNow := 0 }

/-- The record finalized after a fresh periodic window of five such
    iterations. -/
def c4record : ChannelRec :=
  periodicRun (freshRecord "A" "u") [bufStep004, bufStep004, bufStep004, bufStep004, bufStep004] 0

/-- C4 counterexample: after five buffering probes of 0.004 s each, the
    finalized record has buffering_total_seconds = 0.02 (the unrounded
    durations are accumulated, and the total rounded once at finalize) but
    buffering_events = [0, 0, 0, 0, 0] (each event is rounded before being
    appended), so the total misses the sum of the events by 0.02 > 0.01 and
    the claimed tolerance fails. -/
theorem buffering_tolerance_fails :
    ¬ (c4record.disconnects_count = c4record.disconnects.length ∧
       |c4record.buffering_total_seconds - c4record.buffering_events.sum| ≤ 1 / 100) := by
  obtain ⟨h1, h2, -, -, -, -⟩ :=
    foldl_periodicStep_fields [bufStep004, bufStep004, bufStep004, bufStep004, bufStep004]
      (initPState (freshRecord "A" "u"))
  have hdurs : bufDurs [bufStep004, bufStep004, bufStep004, bufStep004, bufStep004]
      = [1/250, 1/250, 1/250, 1/250, 1/250] := by
    norm_num [bufDurs, bufStep004, buffDur, pyTruthy, List.filter_cons]
  have hr : round2 ((250 : ℚ)⁻¹) = 0 := by
    norm_num [round2, round_eq]
  have hr2 : round2 (1/50) = 1/50 := by
    norm_num [round2, round_eq]
  have ht : c4record.buffering_total_seconds = round2 (1/50) := by
    simp only [c4record, periodicRun, periodicFinalize]
    rw [h2, hdurs]
    norm_num [initPState, freshRecord]
  have hev : c4record.buffering_events = [0, 0, 0, 0, 0] := by
    simp only [c4record, periodicRun, periodicFinalize]
    rw [h1, hdurs]
    simp [initPState, freshRecord, hr]
  rintro ⟨-, habs⟩
  rw [ht, hev, hr2] at habs
  norm_num at habs
  rw [abs_of_pos (by norm_num : (0 : ℚ) < 1 / 50)] at habs
  norm_num at habs

theorem abs_round2_sub (x : ℚ) : |round2 x - x| ≤ 1 / 200 := by
  have h := abs_sub_round ((100 : ℚ) * x)
  rw [abs_sub_comm] at h
  have hx : round2 x - x = (((round ((100 : ℚ) * x) : ℤ) : ℚ) - 100 * x) / 100 := by
    unfold round2; ring
  rw [hx, abs_div]
  have h100 : |(100 : ℚ)| = 100 := by norm_num
  rw [h100, div_le_div_iff₀ (by norm_num) (by norm_num)]
  linarith

theorem sum_map_round2_sub (ds : List ℚ) :
    |(ds.map round2).sum - ds.sum| ≤ (ds.length : ℚ) / 200 := by
  induction ds with
  | nil => simp
  | cons d t ih =>
    simp only [List.map_cons, List.sum_cons, List.length_cons]
    have h1 := abs_round2_sub d
    have htri : |round2 d + (t.map round2).sum - (d + t.sum)|
        ≤ |round2 d - d| + |(t.map round2).sum - t.sum| := by
      have : round2 d + (t.map round2).sum - (d + t.sum)
          = (round2 d - d) + ((t.map round2).sum - t.sum) := by ring
      rw [this]
      exact abs_add _ _
    have : ((t.length + 1 : ℕ) : ℚ) = (t.length : ℚ) + 1 := by push_cast; ring
    rw [this]
    calc |round2 d + (t.map round2).sum - (d + t.sum)|
        ≤ |round2 d - d| + |(t.map round2).sum - t.sum| := htri
      _ ≤ 1 / 200 + (t.length : ℚ) / 200 := add_le_add h1 ih
      _ = ((t.length : ℚ) + 1) / 200 := by ring

/-- C4 amended: after every finalize step of a periodic window that starts
    from a fresh record, disconnects_count equals the length of disconnects;
    buffering_total_seconds is the once-rounded sum of the unrounded
    durations while buffering_events holds the individually rounded
    durations, so the two agree only to within (k + 1) / 200 for k recorded
    buffering events (0.01 is guaranteed only for k ≤ 1; see the
    counterexample for k = 5). -/
theorem finalize_record_invariants (name url : String) (steps : List PStep) (testedFinal : ℤ) :
    (periodicRun (freshRecord name url) steps testedFinal).disconnects_count =
      (periodicRun (freshRecord name url) steps testedFinal).disconnects.length ∧
    |(periodicRun (freshRecord name url) steps testedFinal).buffering_total_seconds -
        ((periodicRun (freshRecord name url) steps testedFinal).buffering_events).sum| ≤
      (((periodicRun (freshRecord name url) steps testedFinal).buffering_events.length : ℚ) + 1) / 200 := by
  obtain ⟨h1, h2, h3, h4, -, -⟩ := foldl_periodicStep_fields steps (initPState (freshRecord name url))
  constructor
  · simp only [periodicRun, periodicFinalize]
    rw [h3, h4]
    simp [initPState, freshRecord]
  · simp only [periodicRun, periodicFinalize]
    rw [h1, h2]
    simp only [initPState, freshRecord, List.nil_append, zero_add]
    have ha := abs_round2_sub (bufDurs steps).sum
    have hb := sum_map_round2_sub (bufDurs steps)
    rw [abs_sub_comm] at hb
    have htri : |round2 (bufDurs steps).sum - ((bufDurs steps).map round2).sum|
        ≤ |round2 (bufDurs steps).sum - (bufDurs steps).sum| +
          |(bufDurs steps).sum - ((bufDurs steps).map round2).sum| := by
      have : round2 (bufDurs steps).sum - ((bufDurs steps).map round2).sum
          = (round2 (bufDurs steps).sum - (bufDurs steps).sum) +
            ((bufDurs steps).sum - ((bufDurs steps).map round2).sum) := by ring
      rw [this]
      exact abs_add _ _
    have hlen : (((bufDurs steps).map round2).length : ℚ) = ((bufDurs steps).length : ℚ) := by
      rw [List.length_map]
    calc |round2 (bufDurs steps).sum - ((bufDurs steps).map round2).sum|
        ≤ |round2 (bufDurs steps).sum - (bufDurs steps).sum| +
          |(bufDurs steps).sum - ((bufDurs steps).map round2).sum| := htri
      _ ≤ 1 / 200 + ((bufDurs steps).length : ℚ) / 200 := add_le_add ha hb
      _ = (((bufDurs steps).length : ℚ) + 1) / 200 := by ring
      _ = ((((bufDurs steps).map round2).length : ℚ) + 1) / 200 := by rw [hlen]

/-- C5 counterexample: in the continuous path a diagnostic line containing
    error increments the error counter but appends nothing to disconnects:
    after a window with exactly one detected error event the record shows
    issues_errors = 1 yet zero entries were appended to disconnects, so the
    claimed one-append-per-error-event correspondence fails. -/
theorem continuous_error_without_disconnect :
    (continuousRun (freshRecord "A" "u") "" "" [] ["error x"] 0).disconnects.length = 0 ∧
    (continuousRun (freshRecord "A" "u") "" "" [] ["error x"] 0).issues_errors = 1 ∧
    ¬ ((continuousRun (freshRecord "A" "u") "" "" [] ["error x"] 0).disconnects.length =
        (continuousRun (freshRecord "A" "u") "" "" [] ["error x"] 0).issues_errors) := by
  refine ⟨by decide, by decide, by decide⟩

/-- C5 amended: in the periodic path exactly one disconnect entry is
    appended per error probe result (the appended suffix is the list of
    disconnect timestamps, one per error event), while in the continuous
    path detected error events leave the disconnects sequence unchanged. -/
theorem disconnects_append_per_path (rec0 : ChannelRec) (steps : List PStep) (testedFinal : ℤ)
    (seedNotes seedRes : String) (outLines errLines : List String) (elapsed : ℤ) :
    (periodicRun rec0 steps testedFinal).disconnects = rec0.disconnects ++ errTimes steps ∧
    (errTimes steps).length = numErrorSteps steps ∧
    (continuousRun rec0 seedNotes seedRes outLines errLines elapsed).disconnects =
      rec0.disconnects := by
  obtain ⟨-, -, h3, -, -, -⟩ := foldl_periodicStep_fields steps (initPState rec0)
  refine ⟨?_, ?_, ?_⟩
  · simp only [periodicRun, periodicFinalize]
    rw [h3]
    simp [initPState]
  · simp [errTimes, numErrorSteps]
  · simp [continuousRun]

/-- The four carried-over quantities read from a prior-iteration record
    (run_local_test.py lines 284-289). -/
structure CarryCounts where
  buffering_events : List ℚ
  disconnects : List ℤ
  disconnects_count : ℕ
  buffering_total_seconds : ℚ
  deriving Repr, DecidableEq

/-- The previous_counts dict of prepare_and_run (lines 279-291): records of
    the prior snapshot are inserted keyed by channel name, so the last record
    with a given name wins. -/
def previousCounts (prev : List ChannelRec) (name : String) : Option CarryCounts :=
  ((prev.filter (fun r => r.name == name)).getLast?).map
    (fun r => { buffering_events := r.buffering_events, disconnects := r.disconnects,
                disconnects_count := r.disconnects_count,
                buffering_total_seconds := r.buffering_total_seconds })

/-- One entry of the fresh channels_json of prepare_and_run (lines 294-309):
    everything is reset to its initial value except the four carried fields,
    which default to the fresh values when no prior record exists. -/
def initRecord (name url : String) (carry : Option CarryCounts) : ChannelRec :=
  { name := name, status := "pending", details := "", url := url, resolution := "",
    test_duration := "", tested_seconds := 0, issues_buffering := 0, issues_errors := 0,
    disconnects_count := (carry.map (fun p => p.disconnects_count)).getD 0,
    disconnects := (carry.map (fun p => p.disconnects)).getD [],
    buffering_total_seconds := (carry.map (fun p => p.buffering_total_seconds)).getD 0,
    buffering_events := (carry.map (fun p => p.buffering_events)).getD [] }

/-- The channels_json construction of prepare_and_run (lines 277-309):
    previous counts are consulted only when the iteration number exceeds 1
    and the prior results file exists. Channels are (id, name, url) triples. -/
def buildChannelsJson (current_iteration : ℕ) (prevFile : Option (List ChannelRec))
    (chans : List (ℕ × String × String)) : List ChannelRec :=
  let counts : String → Option CarryCounts :=
    if 1 < current_iteration then
      match prevFile with
      | some prev => previousCounts prev
      | none => fun _ => none
    else fun _ => none
  chans.map (fun c => initRecord c.2.1 c.2.2 (counts c.2.1))

/-- C6: when an iteration with number greater than 1 starts and the prior
    snapshot holds a record for the channel name, the fresh record is
    pre-seeded with that record's disconnects_count, disconnects,
    buffering_total_seconds and buffering_events, while every other field is
    reset to its initial value (status pending, zero issue counters, empty
    details and resolution). -/
theorem iteration_carry_over (it : ℕ) (prev : List ChannelRec)
    (chans : List (ℕ × String × String)) (k : ℕ) (c : ℕ × String × String) (p : CarryCounts)
    (hit : 1 < it) (hc : chans[k]? = some c) (hp : previousCounts prev c.2.1 = some p) :
    (buildChannelsJson it (some prev) chans)[k]? = some
      { name := c.2.1, status := "pending", details := "", url := c.2.2, resolution := "",
        test_duration := "", tested_seconds := 0, issues_buffering := 0, issues_errors := 0,
        disconnects_count := p.disconnects_count, disconnects := p.disconnects,
        buffering_total_seconds := p.buffering_total_seconds,
        buffering_events := p.buffering_events } := by
  simp only [buildChannelsJson, if_pos hit, List.getElem?_map, hc, Option.map_some]
  simp [initRecord, hp]

/-- A prior-iteration final record used to witness the carry-over theorem. -/
def priorRecordW : ChannelRec :=
  { name := "A", status := "issue", details := "d", url := "u", resolution := "640x480",
    test_duration := "", tested_seconds := 60, issues_buffering := 1, issues_errors := 2,
    disconnects_count := 2, disconnects := [11, 12], buffering_total_seconds := 3,
    buffering_events := [3] }

/-- Witness for the carry-over theorem at a concrete prior snapshot:
    iteration 2 re-seeds the record of channel A with disconnects_count 2
    while resetting the status to pending. -/
theorem iteration_carry_over_witness :
    (buildChannelsJson 2 (some [priorRecordW]) [(1, "A", "u")])[0]? = some
      { name := "A", status := "pending", details := "", url := "u", resolution := "",
        test_duration := "", tested_seconds := 0, issues_buffering := 0, issues_errors := 0,
        disconnects_count := 2, disconnects := [11, 12], buffering_total_seconds := 3,
        buffering_events := [3] } :=
  iteration_carry_over 2 [priorRecordW] [(1, "A", "u")] 0 (1, "A", "u")
    { buffering_events := [3], disconnects := [11, 12], disconnects_count := 2,
      buffering_total_seconds := 3 }
    (by decide) (by decide) (by decide)

/-- One result row of Monitor.run_once (worker.py line 180). -/
structure ResultEntry where
  id : ℕ
  name : String
  url : String
  result : String
  notes : String
  throughput : Option String
  startup : Option ℚ
  deriving Repr, DecidableEq

/-- One insert_result call recorded against the store (worker.py line 179). -/
structure InsertCall where
  channel_id : ℕ
  status : String
  notes : String
  throughput : Option String
  startup : Option ℚ
  deriving Repr, DecidableEq

/-- Monitor.run_once (worker.py lines 171-181): one sequential pass over the
    channel list; each channel is probed, its outcome persisted, and a result
    row collected. The probe is a parameter (the check_ts environment per
    url); the second component is the list of insert_result calls made, the
    only state mutation of the pass. -/
def run_once (channels : List (ℕ × String × String)) (probe : String → ProbeOutcome) :
    List ResultEntry × List InsertCall :=
  channels.foldl
    (fun acc c =>
      let o := probe c.2.2
      (acc.1 ++ [{ id := c.1, name := c.2.1, url := c.2.2, result := o.status,
                   notes := o.notes, throughput := o.resolution, startup := o.duration }],
       acc.2 ++ [{ channel_id := c.1, status := o.status, notes := o.notes,
                   throughput := o.resolution, startup := o.duration }]))
    ([], [])

/-- C9: with an empty channel list, run_once returns an empty result list
    and makes no insert_result call; a second invocation behaves identically,
    and the state mutations of the two invocations combined are none. -/
theorem run_once_empty_idempotent (probe : String → ProbeOutcome) :
    run_once [] probe = ([], []) ∧
    (run_once [] probe).2 ++ (run_once [] probe).2 = [] := by
  exact ⟨rfl, rfl⟩

/-- Task-counting state of one sweep of run_checks_concurrent (worker.py
    lines 127-148): pending tasks not yet admitted, probes in flight between
    semaphore acquisition and release, and free semaphore permits. Both a
    probe start and a probe finish happen at cooperative suspension points,
    so an arbitrary interleaving of these transitions covers every schedule
    of the event loop. -/
structure SemState where
  pending : ℕ
  running : ℕ
  permits : ℕ
  deriving Repr, DecidableEq

/-- Transitions of the semaphore-gated sweep: a pending task may enter its
    probe only by taking a free permit (async with sem), and a finished probe
    returns its permit. -/
inductive SemStep : SemState → SemState → Prop where
  | start (s : SemState) (hp : 0 < s.pending) (hg : 0 < s.permits) :
      SemStep s { pending := s.pending - 1, running := s.running + 1, permits := s.permits - 1 }
  | finish (s : SemState) (hr : 0 < s.running) :
      SemStep s { pending := s.pending, running := s.running - 1, permits := s.permits + 1 }

/-- States reachable in a run_checks_concurrent sweep over M channels with a
    semaphore of size N. -/
inductive SemReach (M N : ℕ) : SemState → Prop where
  | init : SemReach M N { pending := M, running := 0, permits := N }
  | step {s t : SemState} : SemReach M N s → SemStep s t → SemReach M N t

theorem semReach_running_add_permits (M N : ℕ) (s : SemState) (h : SemReach M N s) :
    s.running + s.permits = N := by
  induction h with
  | init => simp
  | step hr hs ih =>
    cases hs with
    | start hp hg => simp only []; omega
    | finish hrr => simp only []; omega

/-- Task-counting state of one sweep of Monitor._loop (worker.py lines
    162-169): the per-channel probes are launched with asyncio.gather and no
    admission gate, so a pending task may start its probe unconditionally. -/
structure GatherState where
  pending : ℕ
  running : ℕ
  deriving Repr, DecidableEq

/-- Transitions of the ungated gather sweep. -/
inductive GatherStep : GatherState → GatherState → Prop where
  | start (s : GatherState) (hp : 0 < s.pending) :
      GatherStep s { pending := s.pending - 1, running := s.running + 1 }
  | finish (s : GatherState) (hr : 0 < s.running) :
      GatherStep s { pending := s.pending, running := s.running - 1 }

/-- States reachable in a Monitor._loop sweep over M channels. -/
inductive GatherReach (M : ℕ) : GatherState → Prop where
  | init : GatherReach M { pending := M, running := 0 }
  | step {s t : GatherState} : GatherReach M s → GatherStep s t → GatherReach M t

/-- C7 counterexample: the Monitor sweep has no admission limit. With M = 2
    channels, the schedule start-start reaches a state with 2 probes in
    flight, so for the limit N = 1 (with M > N) the claimed bound fails on a
    sweep run by the Monitor loop. -/
theorem monitor_sweep_exceeds_bound :
    GatherReach 2 { pending := 0, running := 2 } ∧
    ¬ (GatherState.running { pending := 0, running := 2 } ≤ 1) := by
  constructor
  · have h1 : GatherReach 2 { pending := 1, running := 1 } :=
      GatherReach.step GatherReach.init (GatherStep.start _ (by decide))
    exact GatherReach.step h1 (GatherStep.start _ (by decide))
  · decide

/-- C7 amended: a run_checks_concurrent sweep over M channels with
    concurrency N never has more than N probes in flight, in every reachable
    state of every schedule; the Monitor loop launches its per-channel probes
    with an ungated gather, where the in-flight count is bounded only by the
    number M of channels of the sweep. -/
theorem sweep_concurrency_bounds (M N : ℕ) :
    (∀ s : SemState, SemReach M N s → s.running ≤ N) ∧
    (∀ s : GatherState, GatherReach M s → s.running ≤ M) := by
  constructor
  · intro s h
    have := semReach_running_add_permits M N s h
    omega
  · intro s h
    have hsum : s.pending + s.running ≤ M := by
      induction h with
      | init => simp
      | step hr hs ih =>
        cases hs with
        | start hp => simp only []; omega
        | finish hrr => simp only []; omega
    omega

/-- Witness for the concurrency-bound theorem at a concrete sweep: from the
    initial state of a sweep over 2 channels with limit 1, the in-flight
    count is within the limit. -/
theorem sweep_concurrency_bounds_witness :
    SemState.running { pending := 2, running := 0, permits := 1 } ≤ 1 :=
  (sweep_concurrency_bounds 2 1).1 { pending := 2, running := 0, permits := 1 } SemReach.init

/-- What one retrieval attempt of fetch_text meets in its environment:
    either session.get itself raises, or a response arrives with an HTTP
    status, a content type, and a body whose text decoding either succeeds or
    fails with a message and a 32-byte sample. -/
inductive AttemptRes where
  | netErr (msg : String) : AttemptRes
  | resp (status : ℕ) (ctype : String) (decodeOk : Bool) (txt emsg firstBytes : String) : AttemptRes

/-- The body of one iteration of the fetch_text retry loop (worker.py lines
    12-25): decode failure raises a diagnostic message carrying the status,
    the content type and the first bytes; then a non-200 status raises; a
    decoded 200 response returns its text. -/
def attemptOutcome : AttemptRes → Except String String
  | AttemptRes.netErr m => Except.error m
  | AttemptRes.resp status ctype decodeOk txt emsg firstBytes =>
    if decodeOk = false then
      Except.error ("decode error: " ++ emsg ++ "; status=" ++ toString status ++
        "; content-type=" ++ ctype ++ "; first_bytes=" ++ firstBytes)
    else if status ≠ 200 then
      Except.error ("HTTP " ++ toString status ++ " " ++ ctype)
    else
      Except.ok txt

/-- The for-loop of fetch_text (worker.py lines 8-29) over the 0-based
    attempt indices still to run: a successful attempt returns immediately;
    a failed attempt with index a records the exception, sleeps
    delay * (a + 1) = 2 * (a + 1) seconds (the recorded sleep list), and
    continues; an exhausted loop raises the summary message carrying the last
    exception. The initial lastExc mirrors the None initialization and is
    read only after at least one failure. -/
def fetch_text_loop (a : ℕ → AttemptRes) : List ℕ → String → Except String String × List ℚ
  | [], lastExc =>
    (Except.error ("fetch_text failed after 3 attempts: " ++ lastExc), [])
  | attempt :: rest, _ =>
    match attemptOutcome (a attempt) with
    | Except.ok t => (Except.ok t, [])
    | Except.error e =>
      let r := fetch_text_loop a rest e
      (r.1, (2 * ((attempt : ℚ) + 1)) :: r.2)

/-- fetch_text (worker.py lines 6-29): up to max_attempts = 3 attempts. -/
def fetch_text (a : ℕ → AttemptRes) : Except String String × List ℚ :=
  fetch_text_loop a (List.range 3) ""

/-- True when an attempt resolved to an error. -/
def attemptFailed (r : AttemptRes) : Bool :=
  match attemptOutcome r with
  | Except.ok _ => false
  | Except.error _ => true

/-- The message of a failed attempt (empty for a success). -/
def attemptErrMsg (r : AttemptRes) : String :=
  match attemptOutcome r with
  | Except.ok _ => ""
  | Except.error e => e

/-- C8: fetch_text makes up to 3 attempts with a sleep of 2 * k seconds
    after the k-th failed attempt (so the delay between attempts k and k + 1
    is 2 * k); if all 3 attempts fail the call raises a message carrying the
    last underlying cause - including the HTTP-status and decode-failure
    causes, the latter built with the status, content type and byte sample by
    attemptOutcome; if attempt k (0-based) is the first success, its text is
    returned after exactly the k earlier sleeps. -/
theorem fetch_text_retry_spec (a : ℕ → AttemptRes) :
    ((∀ i, i < 3 → attemptFailed (a i) = true) →
      fetch_text a =
        (Except.error ("fetch_text failed after 3 attempts: " ++ attemptErrMsg (a 2)),
         [2, 4, 6])) ∧
    (∀ k, k < 3 → (∀ i, i < k → attemptFailed (a i) = true) → attemptFailed (a k) = false →
      fetch_text a = (attemptOutcome (a k), (List.range k).map (fun i => 2 * ((i : ℚ) + 1)))) := by
  have hrange : List.range 3 = [0, 1, 2] := by decide
  constructor
  · intro hall
    have h0 := hall 0 (by omega)
    have h1 := hall 1 (by omega)
    have h2 := hall 2 (by omega)
    simp only [attemptFailed] at h0 h1 h2
    rcases e0 : attemptOutcome (a 0) with m0 | t0
    case error =>
      rcases e1 : attemptOutcome (a 1) with m1 | t1
      case error =>
        rcases e2 : attemptOutcome (a 2) with m2 | t2
        case error =>
          simp [fetch_text, hrange, fetch_text_loop, e0, e1, e2, attemptErrMsg]
          norm_num
        case ok => rw [e2] at h2; simp at h2
      case ok => rw [e1] at h1; simp at h1
    case ok => rw [e0] at h0; simp at h0
  · intro k hk hfail hsucc
    simp only [attemptFailed] at hsucc
    rcases ek : attemptOutcome (a k) with mk | tk
    · rw [ek] at hsucc; simp at hsucc
    · interval_cases k
      · simp [fetch_text, hrange, fetch_text_loop, ek]
      · have h0 := hfail 0 (by omega)
        simp only [attemptFailed] at h0
        rcases e0 : attemptOutcome (a 0) with m0 | t0
        · have hr1 : List.range 1 = [0] := by decide
          simp [fetch_text, hrange, fetch_text_loop, e0, ek, hr1]
        · rw [e0] at h0; simp at h0
      · have h0 := hfail 0 (by omega)
        have h1 := hfail 1 (by omega)
        simp only [attemptFailed] at h0 h1
        rcases e0 : attemptOutcome (a 0) with m0 | t0
        · rcases e1 : attemptOutcome (a 1) with m1 | t1
          · have hr2 : List.range 2 = [0, 1] := by decide
            simp [fetch_text, hrange, fetch_text_loop, e0, e1, ek, hr2]
          · rw [e1] at h1; simp at h1
        · rw [e0] at h0; simp at h0

/-- Witness for the retry theorem at a concrete environment in which every
    attempt raises: the summary error carries the last cause and the three
    recorded backoff sleeps are 2, 4, 6 seconds. -/
theorem fetch_text_retry_spec_witness :
    fetch_text (fun _ => AttemptRes.netErr "boom") =
      (Except.error ("fetch_text failed after 3 attempts: " ++ "boom"), [2, 4, 6]) :=
  (fetch_text_retry_spec (fun _ => AttemptRes.netErr "boom")).1 (fun _ _ => rfl)

/-- Splits a character list at newline characters. -/
def splitNl : List Char → List (List Char)
  | [] => [[]]
  | c :: t =>
    if c = '\n' then [] :: splitNl t
    else
      match splitNl t with
      | [] => [[c]]
      | h :: r => (c :: h) :: r

/-- The lines list of parse_m3u (worker.py line 53): text.splitlines( ) with
    every line stripped. Line terminators are newlines here; the carriage
    return of a CRLF terminator is removed by the strip. As in splitlines, a
    trailing raw empty piece (text ending in a newline, and the empty text)
    yields no line. -/
def pyLines (text : String) : List String :=
  let raw := splitNl text.data
  let raw2 := if raw.getLast? = some [] then raw.dropLast else raw
  raw2.map (fun l => pyStrip (String.mk l))

/-- Characters after the first comma, when a comma occurs. -/
def afterComma : List Char → Option (List Char)
  | [] => none
  | c :: rest => if c = ',' then some rest else afterComma rest

/-- The display name taken from an EXTINF line (worker.py line 59): the text
    after the first comma, or unknown when the line has no comma. -/
def nameOfExtinf (line : String) : String :=
  match afterComma line.data with
  | some r => String.mk r
  | none => "unknown"

/-- The inner skip loop of parse_m3u (worker.py lines 61-63): advance j past
    empty lines and comment lines. -/
def skipIdx (lines : List String) (j : ℕ) : ℕ :=
  if h : j < lines.length then
    if lines[j] = "" ∨ pyStartsWith lines[j] "#" = true then skipIdx lines (j + 1) else j
  else j
termination_by lines.length - j

theorem skipIdx_ge_aux (lines : List String) :
    ∀ n j, lines.length - j ≤ n → j ≤ skipIdx lines j := by
  intro n
  induction n with
  | zero =>
    intro j hj
    unfold skipIdx
    rw [dif_neg (by omega)]
  | succ n ih =>
    intro j hj
    unfold skipIdx
    by_cases h : j < lines.length
    · rw [dif_pos h]
      by_cases hc : lines[j] = "" ∨ pyStartsWith lines[j] "#" = true
      · rw [if_pos hc]
        have := ih (j + 1) (by omega)
        omega
      · rw [if_neg hc]
    · rw [dif_neg h]

theorem skipIdx_ge (lines : List String) (j : ℕ) : j ≤ skipIdx lines j :=
  skipIdx_ge_aux lines (lines.length - j) j le_rfl

/-- The outer scanning loop of parse_m3u (worker.py lines 56-68) from line
    index i: an EXTINF line is paired with the line at the skip index when
    one exists (the skip-exit line is never empty, so the url-truthiness
    guard of line 65 always holds there), and scanning resumes just past the
    paired url line; after an EXTINF with no url the loop index jumps to the
    list end. -/
def parse_from (lines : List String) (i : ℕ) : List (String × String) :=
  if h : i < lines.length then
    if pyStartsWith lines[i] "#EXTINF" = true then
      if h2 : skipIdx lines (i + 1) < lines.length then
        (nameOfExtinf lines[i], lines[skipIdx lines (i + 1)]) ::
          parse_from lines (skipIdx lines (i + 1) + 1)
      else []
    else parse_from lines (i + 1)
  else []
termination_by lines.length - i
decreasing_by
  · have := skipIdx_ge lines (i + 1)
    omega
  · omega

/-- parse_m3u (worker.py lines 51-69). -/
def parse_m3u (text : String) : List (String × String) := parse_from (pyLines text) 0

/-- The first non-empty non-comment line of a list, together with the lines
    after it. -/
def findUrlSplit : List String → Option (String × List String)
  | [] => none
  | l :: rest =>
    if l = "" ∨ pyStartsWith l "#" = true then findUrlSplit rest else some (l, rest)

theorem findUrlSplit_length :
    ∀ (ls : List String) (url : String) (rest2 : List String),
      findUrlSplit ls = some (url, rest2) → rest2.length < ls.length := by
  intro ls
  induction ls with
  | nil => intro url rest2 h; simp [findUrlSplit] at h
  | cons l rest ih =>
    intro url rest2 h
    by_cases hc : l = "" ∨ pyStartsWith l "#" = true
    · simp only [findUrlSplit, if_pos hc] at h
      exact Nat.lt_trans (ih url rest2 h) (by simp)
    · simp only [findUrlSplit, if_neg hc, Option.some.injEq, Prod.mk.injEq] at h
      obtain ⟨-, h2⟩ := h
      subst h2
      simp

/-- Structural reference recursion for the scanning behaviour of parse_m3u,
    with an explicit iteration bound (the list length always suffices): an
    EXTINF head is paired with the next non-empty non-comment line and the
    scan resumes after that line, so EXTINF lines skipped over in between
    contribute no pair; an EXTINF head with no such line ends the scan. -/
def pairsSpecGo : ℕ → List String → List (String × String)
  | 0, _ => []
  | _, [] => []
  | fuel + 1, l :: rest =>
    if pyStartsWith l "#EXTINF" = true then
      match findUrlSplit rest with
      | none => []
      | some (url, rest2) => (nameOfExtinf l, url) :: pairsSpecGo fuel rest2
    else pairsSpecGo fuel rest

/-- The scanning specification with its sufficient bound. -/
def pairsSpec (ls : List String) : List (String × String) := pairsSpecGo ls.length ls

theorem pairsSpecGo_fuel_irrel :
    ∀ (f1 f2 : ℕ) (ls : List String), ls.length ≤ f1 → ls.length ≤ f2 →
      pairsSpecGo f1 ls = pairsSpecGo f2 ls := by
  intro f1
  induction f1 with
  | zero =>
    intro f2 ls h1 h2
    have : ls = [] := List.length_eq_zero.mp (by omega)
    subst this
    cases f2 <;> rfl
  | succ g ih =>
    intro f2 ls h1 h2
    cases ls with
    | nil => cases f2 <;> rfl
    | cons l rest =>
      cases f2 with
      | zero => simp at h2
      | succ g2 =>
        simp only [pairsSpecGo]
        by_cases hx : pyStartsWith l "#EXTINF" = true
        · rw [if_pos hx, if_pos hx]
          rcases hm : findUrlSplit rest with - | ⟨url, rest2⟩
          · rfl
          · have hlen := findUrlSplit_length rest url rest2 hm
            simp only [List.length_cons] at h1 h2
            simp only [ih g2 rest2 (by omega) (by omega)]
        · rw [if_neg hx, if_neg hx]
          simp only [List.length_cons] at h1 h2
          exact ih g2 rest (by omega) (by omega)

theorem findUrlSplit_drop_aux (lines : List String) :
    ∀ n j, lines.length - j ≤ n →
      findUrlSplit (lines.drop j) =
        (lines[skipIdx lines j]?).map (fun u => (u, lines.drop (skipIdx lines j + 1))) := by
  intro n
  induction n with
  | zero =>
    intro j hj
    have hlen : lines.length ≤ j := by omega
    have hs : skipIdx lines j = j := by
      unfold skipIdx
      rw [dif_neg (by omega)]
    rw [List.drop_eq_nil_of_le hlen, hs, List.getElem?_eq_none hlen]
    rfl
  | succ n ih =>
    intro j hj
    by_cases h : j < lines.length
    · rw [List.drop_eq_getElem_cons h]
      by_cases hc : lines[j] = "" ∨ pyStartsWith lines[j] "#" = true
      · have hs : skipIdx lines j = skipIdx lines (j + 1) := by
          conv_lhs => rw [skipIdx.eq_def]
          rw [dif_pos h, if_pos hc]
        rw [hs]
        calc findUrlSplit (lines[j] :: lines.drop (j + 1))
            = findUrlSplit (lines.drop (j + 1)) := by
              simp only [findUrlSplit, if_pos hc]
          _ = _ := ih (j + 1) (by omega)
      · have hs : skipIdx lines j = j := by
          unfold skipIdx
          rw [dif_pos h, if_neg hc]
        simp only [findUrlSplit, if_neg hc]
        rw [hs, List.getElem?_eq_getElem h]
        rfl
    · have hlen : lines.length ≤ j := by omega
      have hs : skipIdx lines j = j := by
        unfold skipIdx
        rw [dif_neg h]
      rw [List.drop_eq_nil_of_le hlen, hs, List.getElem?_eq_none hlen]
      rfl

theorem findUrlSplit_drop (lines : List String) (j : ℕ) :
    findUrlSplit (lines.drop j) =
      (lines[skipIdx lines j]?).map (fun u => (u, lines.drop (skipIdx lines j + 1))) :=
  findUrlSplit_drop_aux lines (lines.length - j) j le_rfl

theorem parse_from_eq_go (lines : List String) :
    ∀ fuel i, lines.length - i ≤ fuel → parse_from lines i = pairsSpecGo fuel (lines.drop i) := by
  intro fuel
  induction fuel with
  | zero =>
    intro i hi
    have hlen : lines.length ≤ i := by omega
    unfold parse_from
    rw [dif_neg (by omega), List.drop_eq_nil_of_le hlen]
    rfl
  | succ f ih =>
    intro i hi
    by_cases h : i < lines.length
    · rw [List.drop_eq_getElem_cons h]
      unfold parse_from
      rw [dif_pos h]
      by_cases hx : pyStartsWith lines[i] "#EXTINF" = true
      · rw [if_pos hx]
        simp only [pairsSpecGo, if_pos hx]
        have hge := skipIdx_ge lines (i + 1)
        by_cases h2 : skipIdx lines (i + 1) < lines.length
        · have hf2 : findUrlSplit (lines.drop (i + 1)) =
              some (lines[skipIdx lines (i + 1)], lines.drop (skipIdx lines (i + 1) + 1)) := by
            rw [findUrlSplit_drop, List.getElem?_eq_getElem h2]
            rfl
          rw [dif_pos h2, hf2]
          rw [ih (skipIdx lines (i + 1) + 1) (by omega)]
        · have hf2 : findUrlSplit (lines.drop (i + 1)) = none := by
            rw [findUrlSplit_drop, List.getElem?_eq_none (by omega)]
            rfl
          rw [dif_neg h2, hf2]
      · rw [if_neg hx]
        simp only [pairsSpecGo, if_neg hx]
        exact ih (i + 1) (by omega)
    · have hlen : lines.length ≤ i := by omega
      unfold parse_from
      rw [dif_neg (by omega), List.drop_eq_nil_of_le hlen]
      rfl

/-- C10 amended: parse_m3u scans the stripped lines in order; when the scan
    reaches a line starting with EXTINF it takes the next following
    non-empty non-comment line as the url, emits the pair (text after the
    first comma, or unknown without a comma, paired with the url), and
    resumes scanning strictly after the url line - so EXTINF lines lying
    between a paired EXTINF line and its url are skipped and contribute no
    pair; an EXTINF line with no following non-empty non-comment line
    contributes no pair; the returned pairs appear in source order. All of
    this is the structural scanning recursion pairsSpec. -/
theorem parse_m3u_matches_scan (text : String) :
    parse_m3u text = pairsSpec (pyLines text) := by
  rw [parse_m3u, pairsSpec, parse_from_eq_go (pyLines text) (pyLines text).length 0 (by omega)]
  rfl

/-- Formalization of C10 as frozen: every line starting with EXTINF is
    paired with the next following non-empty non-comment line, with the
    name taken after the first comma (or unknown), in source order. -/
def claimPairs (lines : List String) : List (String × String) :=
  (List.range lines.length).filterMap (fun i =>
    if pyStartsWith (lines.getD i "") "#EXTINF" = true then
      match findUrlSplit (lines.drop (i + 1)) with
      | some (url, _) => some (nameOfExtinf (lines.getD i ""), url)
      | none => none
    else none)

/-- The playlist text of the C10 counterexample: two consecutive EXTINF
    lines followed by one url line. -/
def c10text : String := "#EXTINF:-1,A\n#EXTINF:-1,B\nhttp://x"

/-- C10 counterexample: on two consecutive EXTINF lines followed by one url,
    the claim demands both EXTINF lines be paired with the url, but
    parse_m3u pairs only the first one - the second EXTINF line is skipped
    over when scanning resumes past the url line. -/
theorem parse_m3u_claim_false : ¬ (parse_m3u c10text = claimPairs (pyLines c10text)) := by
  have hcode : parse_m3u c10text = [("A", "http://x")] := by
    rw [parse_m3u, parse_from_eq_go (pyLines c10text) (pyLines c10text).length 0 (by omega)]
    decide
  have hclaim : claimPairs (pyLines c10text) = [("A", "http://x"), ("B", "http://x")] := by
    decide
  intro h
  rw [hcode, hclaim] at h
  exact absurd h (by decide)

end IPTVMonitor
